import Mathlib

/-!
Shallow embedding of the bulk request engine of the X1-BOMBER repository
(internal/httpclient/client.go, function SendMultipleRequests and its
helpers).  Go maps are modelled as association lists (iteration order is
the list order) or as functions to Option; machine integers are Int/Nat;
fallible steps return Except.
-/

namespace X1

/-- Response is the simplified response record of client.go (status text,
status code, body snippet). -/
structure Response where
  status : String
  statusCode : Int
  body : String
deriving DecidableEq, Repr

/-- UTF-8 bytes of a character: a Go string is a byte sequence, and the
engine's truncation (len, slicing) and url.QueryEscape operate on
bytes. -/
def utf8Bytes (c : Char) : List Nat :=
  let n := c.toNat
  if n < 128 then [n]
  else if n < 2048 then [192 + n / 64, 128 + n % 64]
  else if n < 65536 then [224 + n / 4096, 128 + (n / 64) % 64, 128 + n % 64]
  else [240 + n / 262144, 128 + (n / 4096) % 64, 128 + (n / 64) % 64, 128 + n % 64]

/-- The byte sequence of a Go string value. -/
def stringBytes (s : String) : List Nat := s.data.flatMap utf8Bytes

/-- TotalPerStatus of Stats: a Go map int -> int, modelled as an
association list with unique keys; a missing key counts as 0. -/
abbrev StatusCounts := List (Int × Nat)

/-- ExampleMessage of Stats: a Go map int -> string.  A Go string is an
arbitrary byte sequence — the 200-byte truncation at client.go line 303
can cut a UTF-8 character in half — so the stored values are modelled as
byte lists. -/
abbrev Examples := List (Int × List Nat)

/-- Stats as aggregated by SendMultipleRequests (client.go lines 31-34). -/
structure Stats where
  totalPerStatus : StatusCounts
  exampleMessage : Examples
deriving DecidableEq, Repr

/-- The empty Stats the coordinator starts from (client.go lines 134-137). -/
def emptyStats : Stats := { totalPerStatus := [], exampleMessage := [] }

/-- Go map read m[k] returning an Option: the association list stands for
a Go map, its order for the (arbitrary) iteration order; keys are unique. -/
def goFind {κ α : Type} [DecidableEq κ] : List (κ × α) → κ → Option α
  | [], _ => none
  | (k, v) :: rest, key => if k = key then some v else goFind rest key

/-- Count stored for status s (Go map read: missing key yields zero). -/
def getCount (m : StatusCounts) (s : Int) : Nat :=
  match goFind m s with
  | some n => n
  | none => 0

/-- Go increment stats.TotalPerStatus[s]++ : bump the count of s by one,
creating the entry at 1 when absent. -/
def bump : StatusCounts → Int → StatusCounts
  | [], s => [(s, 1)]
  | (k, n) :: rest, s => if k = s then (k, n + 1) :: rest else (k, n) :: bump rest s

/-- Sum of all counts of the map. -/
def sumCounts (m : StatusCounts) : Nat := (m.map Prod.snd).sum

/-- Go pattern: if _, exists := m[s]; !exists then m[s] = v. -/
def setIfAbsent (m : Examples) (s : Int) (v : List Nat) : Examples :=
  match goFind m s with
  | some _ => m
  | none => (s, v) :: m

/-- Truncation applied to a snippet's bytes before they become the
example message (client.go lines 301-304): Go tests len(msg) > 200 and
slices msg[:200], both on bytes, then appends the three bytes of the
ellipsis; a snippet of at most 200 bytes is stored unchanged. -/
def truncateExample (msg : List Nat) : List Nat :=
  if 200 < msg.length then msg.take 200 ++ [46, 46, 46] else msg

/-- Aggregator action for a successful response (client.go lines 298-307):
increment the count of its status code and set the example message for
that status — the byte-truncated snippet — when none exists yet. -/
def aggRecord (st : Stats) (r : Response) : Stats :=
  { totalPerStatus := bump st.totalPerStatus r.statusCode
    exampleMessage := setIfAbsent st.exampleMessage r.statusCode
      (truncateExample (stringBytes r.body)) }

/-- Aggregator action for a failure (client.go lines 314-319): count it
under pseudo-status 0 and set exampleMessage[0] to the error text when
none exists yet. -/
def aggError (st : Stats) (e : String) : Stats :=
  { totalPerStatus := bump st.totalPerStatus 0
    exampleMessage := setIfAbsent st.exampleMessage 0 (stringBytes e) }

/-! Parameter validation (client.go lines 102-110) and rate pacing
(client.go lines 143-151, 172-174). -/

/-- Entry validation of SendMultipleRequests (client.go lines 102-110):
count <= 0 is a fatal invalid-count error; concurrency <= 0 becomes 10;
chunkSize <= 0 becomes 1000.  Returns the effective (concurrency,
chunkSize) pair on success. -/
def validateParams (count concurrency chunkSize : Int) : Except String (Int × Int) :=
  if count ≤ 0 then Except.error "invalid count"
  else Except.ok
    ((if concurrency ≤ 0 then 10 else concurrency),
     (if chunkSize ≤ 0 then 1000 else chunkSize))

/-- Whether pacing is active.  rateLimit is consulted in exactly two
places (client.go lines 143 and 172), both as the test rateLimit > 0, so
any rateLimit <= 0 — negative included — behaves as 0 (pacing off). -/
def pacingEnabled (rateLimit : Int) : Bool := decide (0 < rateLimit)

/-- Ticker interval in nanoseconds (client.go lines 144-147).  Go computes
time.Duration(float64(time.Second)/float64(rateLimit)) — the float64
quotient truncated to an integer — and bumps the result to one
millisecond only when it is <= 0.  For 0 < r < 2^53 the float64 quotient
of the exactly-represented operands differs from the real quotient by at
most (10^9/r)·2^-53 < (1/r)·(10^9·2^-53), which is smaller than the gap
1/r between a non-integer rational with denominator r and the nearest
integer, so the truncation equals the floor and Nat division models it
exactly. -/
def tickerIntervalNs (rateLimit : Nat) : Nat :=
  if 1000000000 / rateLimit = 0 then 1000000 else 1000000000 / rateLimit

/-- C7: on entry, count <= 0 yields the fatal invalid-count error and no
Stats; concurrency <= 0 is coerced to 10 and chunkSize <= 0 to 1000,
while in-range values pass through unchanged; a negative rateLimit
behaves exactly as 0 (pacing disabled) and a positive one enables
pacing. -/
theorem claim_c7 (count concurrency chunkSize rateLimit : Int) :
    (count ≤ 0 → validateParams count concurrency chunkSize = Except.error "invalid count")
    ∧ (0 < count → ∃ p : Int × Int,
        validateParams count concurrency chunkSize = Except.ok p
        ∧ (0 < concurrency → p.1 = concurrency)
        ∧ (concurrency ≤ 0 → p.1 = 10)
        ∧ (0 < chunkSize → p.2 = chunkSize)
        ∧ (chunkSize ≤ 0 → p.2 = 1000)
        ∧ 0 < p.1 ∧ 0 < p.2)
    ∧ (rateLimit < 0 → pacingEnabled rateLimit = pacingEnabled 0)
    ∧ (0 < rateLimit → pacingEnabled rateLimit = true) := by
  refine ⟨?_, ?_, ?_, ?_⟩
  · intro h
    simp [validateParams, h]
  · intro h
    refine ⟨((if concurrency ≤ 0 then 10 else concurrency),
             (if chunkSize ≤ 0 then 1000 else chunkSize)), ?_, ?_, ?_, ?_, ?_, ?_, ?_⟩
    · simp [validateParams, not_le.mpr h]
    · intro hc
      simp [not_le.mpr hc]
    · intro hc
      simp [hc]
    · intro hc
      simp [not_le.mpr hc]
    · intro hc
      simp [hc]
    · by_cases hc : concurrency ≤ 0
      · simp [hc]
      · simp [hc]
        omega
    · by_cases hc : chunkSize ≤ 0
      · simp [hc]
      · simp [hc]
        omega
  · intro h
    simp [pacingEnabled]
    omega
  · intro h
    simp [pacingEnabled, h]

/-- Witness for C7 at concrete inputs: count = -1 is rejected, and for
count = 5, concurrency = -1, chunkSize = 0, rateLimit = -3 the coercions
produce (10, 1000) and pacing is off as for rateLimit = 0. -/
theorem claim_c7_witness :
    validateParams (-1) 4 4 = Except.error "invalid count"
    ∧ (∃ p : Int × Int, validateParams 5 (-1) 0 = Except.ok p ∧ p.1 = 10 ∧ p.2 = 1000)
    ∧ pacingEnabled (-3) = pacingEnabled 0 := by
  have h1 := (claim_c7 (-1) 4 4 0).1 (by decide)
  have h2 := (claim_c7 5 (-1) 0 (-3)).2.1 (by decide)
  have h3 := (claim_c7 5 (-1) 0 (-3)).2.2.1 (by decide)
  obtain ⟨p, hp, _, hc10, _, hk1000, _⟩ := h2
  exact ⟨h1, ⟨p, hp, hc10 (by decide), hk1000 (by decide)⟩, h3⟩

/-- C8 counterexample: at rateLimit = 2000 the ticker interval is 500000
ns, not max(10^9/2000, 10^6) = 10^6 ns — the engine paces faster than one
permit per millisecond, so the interval is not max(1s/R, 1ms). -/
theorem c8_counterexample :
    tickerIntervalNs 2000 ≠ max (1000000000 / 2000) 1000000
    ∧ tickerIntervalNs 2000 = 500000 := by
  constructor
  · decide
  · decide

/-- C8 amended: for every rateLimit R > 0 the ticker interval is the
truncated quotient 10^9 / R when R <= 10^9, and is coerced to 1 ms only
when the quotient truncates to 0 (R > 10^9); consequently the interval is
always positive but drops below 1 ms for any R > 1000. -/
theorem c8_interval (r : Nat) (hr : 0 < r) :
    (r ≤ 1000000000 → tickerIntervalNs r = 1000000000 / r)
    ∧ (1000000000 < r → tickerIntervalNs r = 1000000)
    ∧ 0 < tickerIntervalNs r
    ∧ (1000 < r → r ≤ 1000000000 → tickerIntervalNs r < 1000000) := by
  refine ⟨?_, ?_, ?_, ?_⟩
  · intro h
    have hq : 0 < 1000000000 / r := Nat.div_pos h hr
    simp [tickerIntervalNs, hq.ne']
  · intro h
    have hq : 1000000000 / r = 0 := Nat.div_eq_of_lt h
    simp [tickerIntervalNs, hq]
  · unfold tickerIntervalNs
    by_cases h : 1000000000 / r = 0
    · simp [h]
    · simp [h]
      exact Nat.pos_of_ne_zero h
  · intro h1 h2
    have hq : 0 < 1000000000 / r := Nat.div_pos h2 hr
    have hle : 1000000000 / r ≤ 1000000000 / 1001 := Nat.div_le_div_left h1 (by omega)
    simp [tickerIntervalNs, hq.ne']
    exact lt_of_le_of_lt hle (by norm_num)

/-- Witness for C8 amended at r = 2000 and r = 2000000000. -/
theorem c8_interval_witness :
    tickerIntervalNs 2000 = 1000000000 / 2000
    ∧ tickerIntervalNs 2000000000 = 1000000
    ∧ tickerIntervalNs 2000 < 1000000 := by
  have h1 := c8_interval 2000 (by decide)
  have h2 := c8_interval 2000000000 (by decide)
  exact ⟨h1.1 (by decide), h2.2.1 (by decide), h1.2.2.2 (by decide) (by decide)⟩

/-! Association-list lemmas for the aggregator maps. -/

theorem getCount_bump_self (m : StatusCounts) (s : Int) :
    getCount (bump m s) s = getCount m s + 1 := by
  induction m with
  | nil => simp [bump, getCount, goFind]
  | cons p rest ih =>
    obtain ⟨k, n⟩ := p
    by_cases h : k = s
    · simp [bump, getCount, goFind, h]
    · simp [bump, getCount, goFind, h]
      exact ih

theorem getCount_bump_ne (m : StatusCounts) (s t : Int) (h : t ≠ s) :
    getCount (bump m s) t = getCount m t := by
  induction m with
  | nil => simp [bump, getCount, goFind, Ne.symm h]
  | cons p rest ih =>
    obtain ⟨k, n⟩ := p
    by_cases hk : k = s
    · subst hk
      simp [bump, getCount, goFind, Ne.symm h]
    · by_cases ht : k = t
      · simp [bump, getCount, goFind, hk, ht, h]
      · simp [bump, getCount, goFind, hk, ht]
        exact ih

theorem sumCounts_bump (m : StatusCounts) (s : Int) :
    sumCounts (bump m s) = sumCounts m + 1 := by
  induction m with
  | nil => simp [bump, sumCounts]
  | cons p rest ih =>
    obtain ⟨k, n⟩ := p
    by_cases h : k = s
    · simp [bump, sumCounts, h]
      omega
    · simp [bump, sumCounts, h]
      simp [sumCounts] at ih
      omega

theorem goFind_setIfAbsent_absent (m : Examples) (s : Int) (v : List Nat)
    (h : goFind m s = none) : goFind (setIfAbsent m s v) s = some v := by
  simp [setIfAbsent, h, goFind]

theorem goFind_setIfAbsent_present (m : Examples) (s : Int) (v w : List Nat)
    (h : goFind m s = some w) : goFind (setIfAbsent m s v) s = some w := by
  simp [setIfAbsent, h]

set_option maxRecDepth 100000 in
/-- C5 counterexample: a snippet of 101 two-byte characters has at most
200 characters, so truncation to 200 characters would store it unchanged;
the aggregator, which measures and slices bytes (the snippet is 202 bytes
long), stores something else — the 200-byte prefix with the ellipsis
appended. -/
theorem c5_counterexample :
    (String.mk (List.replicate 101 (Char.ofNat 233))).length ≤ 200
    ∧ goFind (aggRecord emptyStats
          ⟨"200 OK", 200, String.mk (List.replicate 101 (Char.ofNat 233))⟩).exampleMessage
          200
        ≠ some (stringBytes (String.mk (List.replicate 101 (Char.ofNat 233)))) := by
  exact ⟨by decide, by decide⟩

/-- C5 amended: processing a successful response with status code s
increments totalPerStatus[s] by one, leaves every other status count
unchanged, sets exampleMessage[s] — when no example exists yet — to the
snippet's bytes truncated to 200 bytes with the three ellipsis bytes
appended exactly when the snippet exceeds 200 bytes, and never
overwrites an existing example. -/
theorem claim_c5 (st : Stats) (r : Response) :
    getCount (aggRecord st r).totalPerStatus r.statusCode
      = getCount st.totalPerStatus r.statusCode + 1
    ∧ (∀ t, t ≠ r.statusCode →
        getCount (aggRecord st r).totalPerStatus t = getCount st.totalPerStatus t)
    ∧ (goFind st.exampleMessage r.statusCode = none →
        goFind (aggRecord st r).exampleMessage r.statusCode
          = some (truncateExample (stringBytes r.body)))
    ∧ (∀ v, goFind st.exampleMessage r.statusCode = some v →
        goFind (aggRecord st r).exampleMessage r.statusCode = some v)
    ∧ ((stringBytes r.body).length ≤ 200 →
        truncateExample (stringBytes r.body) = stringBytes r.body)
    ∧ (200 < (stringBytes r.body).length →
        truncateExample (stringBytes r.body)
          = (stringBytes r.body).take 200 ++ [46, 46, 46]) := by
  refine ⟨?_, ?_, ?_, ?_, ?_, ?_⟩
  · exact getCount_bump_self st.totalPerStatus r.statusCode
  · intro t ht
    exact getCount_bump_ne st.totalPerStatus r.statusCode t ht
  · intro h
    exact goFind_setIfAbsent_absent st.exampleMessage r.statusCode _ h
  · intro v h
    exact goFind_setIfAbsent_present st.exampleMessage r.statusCode _ v h
  · intro h
    simp [truncateExample, Nat.not_lt.mpr h]
  · intro h
    simp [truncateExample, h]

set_option maxRecDepth 100000 in
/-- Witness for C5 amended: aggregating a 200/"OK" response into stats
that already hold an example for 404 bumps the 200 count to 1, leaves the
404 count at 2, sets exampleMessage[200] to the bytes of "OK" (2 bytes,
no truncation), keeps exampleMessage[404] intact; and on the 202-byte
snippet of the counterexample the stored bytes are the 200-byte prefix
plus the ellipsis. -/
theorem claim_c5_witness :
    getCount (aggRecord ⟨[(404, 2)], [(404, stringBytes "Not Found")]⟩
        ⟨"200 OK", 200, "OK"⟩).totalPerStatus 200 = getCount [(404, 2)] 200 + 1
    ∧ getCount (aggRecord ⟨[(404, 2)], [(404, stringBytes "Not Found")]⟩
        ⟨"200 OK", 200, "OK"⟩).totalPerStatus 404 = 2
    ∧ goFind (aggRecord ⟨[(404, 2)], [(404, stringBytes "Not Found")]⟩
        ⟨"200 OK", 200, "OK"⟩).exampleMessage 200 = some [79, 75]
    ∧ truncateExample (stringBytes "OK") = stringBytes "OK"
    ∧ truncateExample (stringBytes (String.mk (List.replicate 101 (Char.ofNat 233))))
        = (stringBytes (String.mk (List.replicate 101 (Char.ofNat 233)))).take 200
            ++ [46, 46, 46] := by
  have h := claim_c5 ⟨[(404, 2)], [(404, stringBytes "Not Found")]⟩ ⟨"200 OK", 200, "OK"⟩
  have h2 := claim_c5 ⟨[], []⟩
    ⟨"200 OK", 200, String.mk (List.replicate 101 (Char.ofNat 233))⟩
  refine ⟨h.1, ?_, ?_, h.2.2.2.2.1 (by decide), h2.2.2.2.2.2 (by decide)⟩
  · have h404 := h.2.1 404 (by decide)
    rw [h404]
    simp [getCount, goFind]
  · have := h.2.2.1 (by simp [goFind])
    rw [this]
    decide

/-! Header handling of the worker (client.go lines 240-245).  Headers are
modelled extensionally as functions String -> Option String: the contents
of a Go map. -/

/-- A Go string-to-string map, extensionally. -/
abbrev GoMap := String → Option String

/-- Go map store m[k] = v. -/
def mapSet (m : GoMap) (k v : String) : GoMap :=
  fun x => if x = k then some v else m x

/-- Per-request header construction (client.go lines 240-245): copy every
entry of the caller's map into a fresh map, then set Content-Type on that
fresh map.  Copying reproduces the caller's contents, so the result is
the caller's map with Content-Type overridden. -/
def buildReqHeaders (headers : GoMap) (contentType : String) : GoMap :=
  mapSet headers "Content-Type" contentType

/-- Caller's headers map after a run of the engine: neither
SendMultipleRequests nor its worker nor SendRequestWithClient contains a
store into the caller's map (it is only ranged over at lines 242-244 and
read again per request), so the run leaves it unchanged. -/
def callerHeadersAfterRun (headers : GoMap) : GoMap := headers

/-- C4: the engine never mutates the caller's headers map — after the run
it is identical to the input — and each request uses a fresh copy whose
Content-Type is the encoder's content type while every other key reads
exactly as in the caller's map. -/
theorem claim_c4 (headers : GoMap) (ct : String) :
    callerHeadersAfterRun headers = headers
    ∧ buildReqHeaders headers ct "Content-Type" = some ct
    ∧ (∀ k, k ≠ "Content-Type" → buildReqHeaders headers ct k = headers k) := by
  refine ⟨rfl, ?_, ?_⟩
  · simp [buildReqHeaders, mapSet]
  · intro k hk
    simp [buildReqHeaders, mapSet, hk]

/-- Witness for C4 on a concrete caller map holding an Authorization
header: the run preserves the map, the per-request copy carries the
encoder's Content-Type, and Authorization still reads through. -/
theorem claim_c4_witness :
    callerHeadersAfterRun
        (fun k => if k = "Authorization" then some "Bearer t" else none)
      = (fun k => if k = "Authorization" then some "Bearer t" else none)
    ∧ buildReqHeaders
        (fun k => if k = "Authorization" then some "Bearer t" else none)
        "application/json" "Content-Type" = some "application/json"
    ∧ buildReqHeaders
        (fun k => if k = "Authorization" then some "Bearer t" else none)
        "application/json" "Authorization" = some "Bearer t" := by
  have h := claim_c4
    (fun k => if k = "Authorization" then some "Bearer t" else none)
    "application/json"
  refine ⟨h.1, h.2.1, ?_⟩
  have := h.2.2 "Authorization" (by decide)
  simpa using this

/-! Per-request outcomes and the CSV log sink (client.go lines 121-132
and 247-260). -/

/-- One completed request: either an HTTP response or a failure
(transport or encoding) with its error text. -/
inductive Outcome where
  | success (idx : Nat) (resp : Response)
  | failure (idx : Nat) (msg : String)
deriving DecidableEq, Repr

/-- Whether the outcome is a successful HTTP response. -/
def Outcome.isSuccess : Outcome → Bool
  | .success _ _ => true
  | .failure _ _ => false

/-- CSV row the worker writes for an outcome (client.go lines 254-260):
a row is written only on the success path — the error path at lines
248-251 sends to the error channel and continues before the logging
block, so failures produce no row. -/
def logRow : Outcome → Option (List String)
  | .success idx resp => some [toString idx, toString resp.statusCode, resp.body]
  | .failure _ _ => none

/-- The CSV log produced by a run, as a list of rows: the header written
at client.go line 129 followed by the rows the workers write, in
completion order. -/
def logFile (outcomes : List Outcome) : List (List String) :=
  ["index", "status", "snippet"] :: outcomes.filterMap logRow

/-- C2 counterexample: a run of N = 1 requests whose single request ends
in a transport failure yields a log with zero data rows, not one row with
status 0 — the claimed one-row-per-outcome accounting fails. -/
theorem c2_counterexample :
    (logFile [Outcome.failure 0 "connection refused"]).tail.length
      ≠ [Outcome.failure 0 "connection refused"].length := by
  decide

theorem logRow_isSome (o : Outcome) : (logRow o).isSome = o.isSuccess := by
  cases o <;> rfl

theorem length_filterMap_logRow (os : List Outcome) :
    (os.filterMap logRow).length = os.countP (fun o => o.isSuccess) := by
  induction os with
  | nil => simp
  | cons o rest ih =>
    cases o with
    | success i r => simp [logRow, Outcome.isSuccess, List.countP_cons, ih]
    | failure i m => simp [logRow, Outcome.isSuccess, List.countP_cons, ih]

/-- C2 amended: the log file is the header row index,status,snippet
followed by exactly one CSV data row per successful HTTP response — its
index, status code and snippet — while transport and encoding failures
produce no row, so after a run the file has exactly as many data rows as
there were successful responses. -/
theorem c2_log_rows (os : List Outcome) :
    (logFile os).head? = some ["index", "status", "snippet"]
    ∧ (logFile os).tail.length = os.countP (fun o => o.isSuccess)
    ∧ (∀ i r, Outcome.success i r ∈ os →
        [toString i, toString r.statusCode, r.body] ∈ (logFile os).tail) := by
  refine ⟨rfl, ?_, ?_⟩
  · simpa [logFile] using length_filterMap_logRow os
  · intro i r hm
    simp only [logFile, List.tail_cons]
    exact List.mem_filterMap.mpr ⟨Outcome.success i r, hm, rfl⟩

/-- Witness for C2 amended on a concrete two-outcome run (one success,
one transport failure): header present, exactly one data row, and it is
the row of the successful request. -/
theorem c2_log_rows_witness :
    (logFile [Outcome.success 7 ⟨"200 OK", 200, "OK"⟩,
              Outcome.failure 8 "connection refused"]).head?
        = some ["index", "status", "snippet"]
    ∧ (logFile [Outcome.success 7 ⟨"200 OK", 200, "OK"⟩,
                Outcome.failure 8 "connection refused"]).tail.length
        = List.countP (fun o => o.isSuccess)
            [Outcome.success 7 ⟨"200 OK", 200, "OK"⟩,
             Outcome.failure 8 "connection refused"]
    ∧ ["7", "200", "OK"] ∈ (logFile [Outcome.success 7 ⟨"200 OK", 200, "OK"⟩,
        Outcome.failure 8 "connection refused"]).tail := by
  have h := c2_log_rows [Outcome.success 7 ⟨"200 OK", 200, "OK"⟩,
    Outcome.failure 8 "connection refused"]
  refine ⟨h.1, h.2.1, ?_⟩
  have hm := h.2.2 7 ⟨"200 OK", 200, "OK"⟩ (by decide)
  simpa using hm

/-! The request encoder (client.go lines 180-238): renders the payload
map into a body and a content type.  A Go map's contents are modelled as
an association list whose order is the map's (arbitrary) iteration
order; two lists that are permutations of each other are the same map
observed under two iteration orders. -/

/-- The field-to-value payload map in iteration order. -/
abbrev Fields := List (String × String)

/-- Lowercase hex digit, as used by encoding/json. -/
def jsonHexDigit (n : Nat) : Char :=
  if n < 10 then Char.ofNat (48 + n) else Char.ofNat (87 + n)

/-- Two lowercase hex digits of a byte. -/
def hexPair (n : Nat) : String :=
  String.singleton (jsonHexDigit (n / 16)) ++ String.singleton (jsonHexDigit (n % 16))

/-- JSON escaping of one character, following encoding/json's string
encoder with its default HTML escaping: quote, backslash, newline,
carriage return and tab get two-character escapes; other control
characters become case-u00 escapes; the HTML-active characters 60, 62
and 38 and the separators U+2028/U+2029 are escaped too. -/
def escapeJSONChar (c : Char) : String :=
  let n := c.toNat
  if n = 34 then "\\\""
  else if n = 92 then "\\\\"
  else if n = 10 then "\\n"
  else if n = 13 then "\\r"
  else if n = 9 then "\\t"
  else if n < 32 then "\\u00" ++ hexPair n
  else if n = 60 ∨ n = 62 ∨ n = 38 then "\\u00" ++ hexPair n
  else if n = 8232 ∨ n = 8233 then "\\u20" ++ hexPair (n % 256)
  else String.singleton c

/-- A JSON string literal of s with canonical escaping. -/
def escapeJSONString (s : String) : String :=
  "\"" ++ String.join (s.data.map escapeJSONChar) ++ "\""

/-- Lexicographic comparison of character lists, the order Go's sort of
map keys uses (UTF-8 byte order agrees with scalar-value order). -/
def lexLe : List Char → List Char → Bool
  | [], _ => true
  | _ :: _, [] => false
  | a :: as, b :: bs => if a < b then true else if b < a then false else lexLe as bs

theorem lexLe_cons_iff (a b : Char) (as bs : List Char) :
    lexLe (a :: as) (b :: bs) = true ↔ a < b ∨ (a = b ∧ lexLe as bs = true) := by
  by_cases h1 : a < b
  · simp [lexLe, h1]
  · by_cases h2 : b < a
    · have hne : a ≠ b := ne_of_gt h2
      simp [lexLe, h1, h2, hne]
    · have heq : a = b := le_antisymm (not_lt.mp h2) (not_lt.mp h1)
      simp [lexLe, h1, h2, heq]

theorem lexLe_total (x : List Char) : ∀ y, lexLe x y = true ∨ lexLe y x = true := by
  induction x with
  | nil => intro y; left; simp [lexLe]
  | cons a as ih =>
    intro y
    cases y with
    | nil => right; simp [lexLe]
    | cons b bs =>
      rcases lt_trichotomy a b with h | h | h
      · left; exact (lexLe_cons_iff a b as bs).mpr (Or.inl h)
      · subst h
        rcases ih bs with hr | hr
        · left; exact (lexLe_cons_iff a a as bs).mpr (Or.inr ⟨rfl, hr⟩)
        · right; exact (lexLe_cons_iff a a bs as).mpr (Or.inr ⟨rfl, hr⟩)
      · right; exact (lexLe_cons_iff b a bs as).mpr (Or.inl h)

theorem lexLe_antisymm (x : List Char) :
    ∀ y, lexLe x y = true → lexLe y x = true → x = y := by
  induction x with
  | nil =>
    intro y _ hyx
    cases y with
    | nil => rfl
    | cons b bs => simp [lexLe] at hyx
  | cons a as ih =>
    intro y hxy hyx
    cases y with
    | nil => simp [lexLe] at hxy
    | cons b bs =>
      rcases (lexLe_cons_iff a b as bs).mp hxy with h | ⟨heq, hrest⟩
      · rcases (lexLe_cons_iff b a bs as).mp hyx with h2 | ⟨heq2, _⟩
        · exact absurd h2 (lt_asymm h)
        · exact absurd (heq2 ▸ h) (lt_irrefl b)
      · subst heq
        rcases (lexLe_cons_iff a a bs as).mp hyx with h2 | ⟨_, hrest2⟩
        · exact absurd h2 (lt_irrefl a)
        · rw [ih bs hrest hrest2]

theorem lexLe_trans (x : List Char) :
    ∀ y z, lexLe x y = true → lexLe y z = true → lexLe x z = true := by
  induction x with
  | nil => intro y z _ _; simp [lexLe]
  | cons a as ih =>
    intro y z hxy hyz
    cases y with
    | nil => simp [lexLe] at hxy
    | cons b bs =>
      cases z with
      | nil => simp [lexLe] at hyz
      | cons c cs =>
        rcases (lexLe_cons_iff a b as bs).mp hxy with h1 | ⟨heq1, hrest1⟩
        · rcases (lexLe_cons_iff b c bs cs).mp hyz with h2 | ⟨heq2, _⟩
          · exact (lexLe_cons_iff a c as cs).mpr (Or.inl (lt_trans h1 h2))
          · exact (lexLe_cons_iff a c as cs).mpr (Or.inl (heq2 ▸ h1))
        · subst heq1
          rcases (lexLe_cons_iff a c bs cs).mp hyz with h2 | ⟨heq2, hrest2⟩
          · exact (lexLe_cons_iff a c as cs).mpr (Or.inl h2)
          · exact (lexLe_cons_iff a c as cs).mpr
              (Or.inr ⟨heq2, ih bs cs hrest1 hrest2⟩)

/-- Key order on field pairs: encoding/json and url.Values.Encode both
serialise map entries in sorted key order. -/
abbrev fieldsLE (p q : String × String) : Prop :=
  lexLe p.1.data q.1.data = true

/-- Key order made irreflexive by requiring distinct keys; antisymmetric,
which ≤ on pairs alone is not. -/
abbrev fieldsLT (p q : String × String) : Prop :=
  fieldsLE p q ∧ p.1 ≠ q.1

theorem string_data_eq {s t : String} (h : s.data = t.data) : s = t := by
  cases s
  cases t
  exact congrArg String.mk h

instance : IsTotal (String × String) fieldsLE :=
  ⟨fun a b => lexLe_total a.1.data b.1.data⟩

instance : IsTrans (String × String) fieldsLE :=
  ⟨fun _ b _ h1 h2 => lexLe_trans _ b.1.data _ h1 h2⟩

instance : IsAntisymm (String × String) fieldsLT :=
  ⟨fun a b h1 h2 =>
    absurd (string_data_eq (lexLe_antisymm a.1.data b.1.data h1.1 h2.1)) h1.2⟩

/-- Entries in sorted key order, as json.Marshal sorts map keys before
serialising and url.Values.Encode sorts its keys. -/
def sortFields (l : Fields) : Fields := l.insertionSort fieldsLE

/-- Body produced for payloadType json (client.go lines 183-191):
json.Marshal of a Go string map — a JSON object whose members appear in
sorted key order with canonical escaping. -/
def encodeJson (l : Fields) : String :=
  "\x7b" ++ String.intercalate ","
    ((sortFields l).map (fun p => escapeJSONString p.1 ++ ":" ++ escapeJSONString p.2))
    ++ "\x7d"

/-- Uppercase hex digit, as used by url.QueryEscape's percent escapes. -/
def hexDigitUpper (n : Nat) : Char :=
  if n < 10 then Char.ofNat (48 + n) else Char.ofNat (55 + n)

/-- Bytes url.QueryEscape leaves unescaped: ASCII alphanumerics and the
marks 45, 95, 46, 126 (dash, underscore, dot, tilde). -/
def isUnreservedByte (b : Nat) : Bool :=
  (48 ≤ b && b ≤ 57) || (65 ≤ b && b ≤ 90) || (97 ≤ b && b ≤ 122)
    || b = 45 || b = 95 || b = 46 || b = 126

/-- url.QueryEscape of one byte: kept, space to plus, or percent-escaped. -/
def queryEscapeByte (b : Nat) : String :=
  if isUnreservedByte b then String.singleton (Char.ofNat b)
  else if b = 32 then "+"
  else "%" ++ String.singleton (hexDigitUpper (b / 16))
    ++ String.singleton (hexDigitUpper (b % 16))

/-- url.QueryEscape of a string, byte by byte. -/
def queryEscape (s : String) : String :=
  String.join ((s.data.flatMap utf8Bytes).map queryEscapeByte)

/-- Body produced for payloadType form (client.go lines 193-199):
url.Values.Encode — key=value pairs percent-escaped and joined by
ampersands in sorted key order. -/
def encodeForm (l : Fields) : String :=
  String.intercalate "&"
    ((sortFields l).map (fun p => queryEscape p.1 ++ "=" ++ queryEscape p.2))

/-- mime/multipart's escaping of field names: backslash and quote get a
backslash. -/
def escapeQuotes (s : String) : String :=
  String.join (s.data.map (fun c =>
    if c.toNat = 92 then "\\\\"
    else if c.toNat = 34 then "\\\"" else String.singleton c))

/-- Body produced for payloadType multipart (client.go lines 201-211):
one form-data part per field in iteration order, closed by the final
boundary; the boundary is drawn at random by multipart.NewWriter and is
an input here. -/
def encodeMultipart (boundary : String) (l : Fields) : String :=
  String.join (l.map (fun p =>
    "--" ++ boundary ++ "\r\n"
      ++ "Content-Disposition: form-data; name=\"" ++ escapeQuotes p.1 ++ "\"\r\n\r\n"
      ++ p.2 ++ "\r\n"))
    ++ "--" ++ boundary ++ "--\r\n"

/-- Body produced for payloadType binary (client.go lines 213-221): the
first value delivered by the map's iteration order — the for-range loop
assigns one value and breaks — or the empty string for an empty map. -/
def encodeBinary : Fields → String
  | [] => ""
  | (_, v) :: _ => v

/-- Body produced for payloadType graphql (client.go lines 223-233):
json.Marshal of the one-key object query -> fields["query"], the missing
key reading as Go's zero string. -/
def encodeGraphql (l : Fields) : String :=
  "\x7b" ++ escapeJSONString "query" ++ ":"
    ++ escapeJSONString ((goFind l "query").getD "") ++ "\x7d"

/-- The five formats of the switch at client.go lines 182-238. -/
def supportedFormats : List String :=
  ["json", "form", "multipart", "binary", "graphql"]

/-- The encoder: the switch on payloadType (client.go lines 182-238)
producing body and content type, or the unsupported-payload-type error of
the default branch. -/
def encode (boundary payloadType : String) (l : Fields) : Except String (String × String) :=
  if payloadType = "json" then Except.ok (encodeJson l, "application/json")
  else if payloadType = "form" then
    Except.ok (encodeForm l, "application/x-www-form-urlencoded")
  else if payloadType = "multipart" then
    Except.ok (encodeMultipart boundary l, "multipart/form-data; boundary=" ++ boundary)
  else if payloadType = "binary" then
    Except.ok (encodeBinary l, "application/octet-stream")
  else if payloadType = "graphql" then Except.ok (encodeGraphql l, "application/json")
  else Except.error ("unsupported payload type: " ++ payloadType)

/-- C9 counterexample: the same two-field mapping observed under its two
iteration orders — the lists are permutations and agree as maps on every
key — yields different binary bodies, so two invocations of the encoder
on the same fields mapping need not produce the same bytes. -/
theorem c9_counterexample :
    List.Perm [("a", "1"), ("b", "2")] [("b", "2"), ("a", "1")]
    ∧ goFind [("a", "1"), ("b", "2")] "a" = goFind [("b", "2"), ("a", "1")] "a"
    ∧ goFind [("a", "1"), ("b", "2")] "b" = goFind [("b", "2"), ("a", "1")] "b"
    ∧ encodeBinary [("a", "1"), ("b", "2")] ≠ encodeBinary [("b", "2"), ("a", "1")] := by
  refine ⟨List.Perm.swap ("b", "2") ("a", "1") [], by decide, by decide, by decide⟩

/-- C9 amended: the binary encoder sends the raw bytes of the first value
in the map's current iteration order with content type
application/octet-stream; it is deterministic across invocations only
when the mapping has at most one entry — with two or more entries,
different iteration orders of the same mapping can produce different
bodies. -/
theorem c9_binary_first_value (boundary : String) (l1 l2 : Fields)
    (hp : List.Perm l1 l2) (hlen : l1.length ≤ 1) :
    encode boundary "binary" l1
      = Except.ok (encodeBinary l1, "application/octet-stream")
    ∧ encodeBinary l1 = encodeBinary l2 := by
  refine ⟨rfl, ?_⟩
  cases l1 with
  | nil =>
    have h2 : l2 = [] := hp.symm.eq_nil
    simp [h2]
  | cons p rest =>
    cases rest with
    | nil =>
      obtain ⟨k, v⟩ := p
      have hm : (k, v) ∈ l2 := hp.mem_iff.mp (by simp)
      have hlen2 : l2.length = 1 := by simpa using hp.length_eq.symm
      cases l2 with
      | nil => simp at hlen2
      | cons q rest2 =>
        cases rest2 with
        | nil =>
          have hpq : (k, v) = q := by simpa using hm
          obtain ⟨k2, v2⟩ := q
          simp [encodeBinary, Prod.ext_iff] at hpq ⊢
          exact hpq.2
        | cons r rest3 => simp at hlen2
    | cons q rest2 => simp at hlen

/-- Witness for C9 amended at a singleton mapping: the encoder returns
the raw value with the octet-stream content type, and both iteration
orders of a one-entry map agree. -/
theorem c9_binary_first_value_witness :
    encode "bnd" "binary" [("k", "payload")]
      = Except.ok (encodeBinary [("k", "payload")], "application/octet-stream")
    ∧ encodeBinary [("k", "payload")] = encodeBinary [("k", "payload")] :=
  c9_binary_first_value "bnd" [("k", "payload")] [("k", "payload")]
    (List.Perm.refl _) (by decide)

/-- Two iteration orders of the same map serialise identically once the
entries are brought into sorted key order: sorting a permutation of a
key-distinct list gives the same list. -/
theorem sortFields_perm_eq (l1 l2 : Fields) (hp : List.Perm l1 l2)
    (hn : (l1.map Prod.fst).Nodup) : sortFields l1 = sortFields l2 := by
  have hperm : List.Perm (sortFields l1) (sortFields l2) :=
    (List.perm_insertionSort fieldsLE l1).trans
      (hp.trans (List.perm_insertionSort fieldsLE l2).symm)
  have hn2 : (l2.map Prod.fst).Nodup := ((hp.map Prod.fst).nodup_iff).mp hn
  have hs1 : List.Sorted fieldsLE (sortFields l1) := List.sorted_insertionSort fieldsLE l1
  have hs2 : List.Sorted fieldsLE (sortFields l2) := List.sorted_insertionSort fieldsLE l2
  have hns1 : ((sortFields l1).map Prod.fst).Nodup :=
    (((List.perm_insertionSort fieldsLE l1).map Prod.fst).nodup_iff).mpr hn
  have hns2 : ((sortFields l2).map Prod.fst).Nodup :=
    (((List.perm_insertionSort fieldsLE l2).map Prod.fst).nodup_iff).mpr hn2
  have hne1 : List.Pairwise (fun p q : String × String => p.1 ≠ q.1) (sortFields l1) :=
    List.pairwise_map.mp hns1
  have hne2 : List.Pairwise (fun p q : String × String => p.1 ≠ q.1) (sortFields l2) :=
    List.pairwise_map.mp hns2
  have hlt1 : List.Sorted fieldsLT (sortFields l1) :=
    (List.Pairwise.and hs1 hne1).imp (fun h => ⟨h.1, h.2⟩)
  have hlt2 : List.Sorted fieldsLT (sortFields l2) :=
    (List.Pairwise.and hs2 hne2).imp (fun h => ⟨h.1, h.2⟩)
  exact List.eq_of_perm_of_sorted hperm hlt1 hlt2

/-- C10: the json and form encoders are fully deterministic functions of
the mapping: any two iteration orders of the same key-distinct fields map
produce byte-identical json bodies and byte-identical form bodies, the
entries being serialised in sorted key order. -/
theorem claim_c10 (l1 l2 : Fields) (hp : List.Perm l1 l2)
    (hn : (l1.map Prod.fst).Nodup) :
    encodeJson l1 = encodeJson l2
    ∧ encodeForm l1 = encodeForm l2
    ∧ List.Sorted fieldsLE (sortFields l1) := by
  have h := sortFields_perm_eq l1 l2 hp hn
  exact ⟨by simp [encodeJson, h], by simp [encodeForm, h],
    List.sorted_insertionSort fieldsLE l1⟩

/-- Witness for C10 on the two iteration orders of a two-entry mapping,
together with the concrete sorted serialisations both orders share. -/
theorem claim_c10_witness :
    encodeJson [("b", "2"), ("a", "1")] = encodeJson [("a", "1"), ("b", "2")]
    ∧ encodeForm [("b", "2"), ("a", "1")] = encodeForm [("a", "1"), ("b", "2")]
    ∧ encodeJson [("b", "2"), ("a", "1")] = "\x7b\"a\":\"1\",\"b\":\"2\"\x7d"
    ∧ encodeForm [("b", "2"), ("a", "1")] = "a=1&b=2" := by
  have h := claim_c10 [("b", "2"), ("a", "1")] [("a", "1"), ("b", "2")]
    (List.Perm.swap ("a", "1") ("b", "2") []) (by decide)
  exact ⟨h.1, h.2.1, by decide, by decide⟩

/-! The worker loop (client.go lines 168-262) and the aggregation of the
outcomes it emits. -/

/-- Aggregator action on one outcome, as the collector performs it
(client.go lines 298-320): a response is counted under its status code,
a failure under pseudo-status 0. -/
def aggOutcome (st : Stats) : Outcome → Stats
  | .success _ r => aggRecord st r
  | .failure _ e => aggError st e

/-- Aggregation of a list of outcomes in completion order. -/
def aggOutcomes (st : Stats) : List Outcome → Stats
  | [] => st
  | o :: rest => aggOutcomes (aggOutcome st o) rest

/-- One worker's pass over its share of the job indices (client.go lines
168-262): for each index it generates the payload, encodes it — on an
encoder error it emits the error on the failure channel and continues
with the next index — and otherwise dispatches the request, emitting
either the response or the transport error wrapped with the index.  The
network is abstracted as a per-index oracle. -/
def workerRun (boundary payloadType : String) (payloadGen : Nat → Fields)
    (transportAt : Nat → Except String Response) : List Nat → List Outcome
  | [] => []
  | idx :: rest =>
    match encode boundary payloadType (payloadGen idx) with
    | .error e =>
      Outcome.failure idx e :: workerRun boundary payloadType payloadGen transportAt rest
    | .ok _ =>
      match transportAt idx with
      | .error te =>
        Outcome.failure idx ("idx " ++ toString idx ++ ": " ++ te)
          :: workerRun boundary payloadType payloadGen transportAt rest
      | .ok resp =>
        Outcome.success idx resp :: workerRun boundary payloadType payloadGen transportAt rest

theorem encode_unsupported (boundary fmt : String) (l : Fields)
    (h : fmt ∉ supportedFormats) :
    encode boundary fmt l = Except.error ("unsupported payload type: " ++ fmt) := by
  simp [supportedFormats] at h
  obtain ⟨h1, h2, h3, h4, h5⟩ := h
  simp [encode, h1, h2, h3, h4, h5]

theorem agg_failures_count (m : String) (jobs : List Nat) (st : Stats) :
    getCount (aggOutcomes st (jobs.map (fun i => Outcome.failure i m))).totalPerStatus 0
      = getCount st.totalPerStatus 0 + jobs.length := by
  induction jobs generalizing st with
  | nil => simp [aggOutcomes]
  | cons j rest ih =>
    have h := ih (aggError st m)
    simp only [List.map_cons, aggOutcomes, aggOutcome] at h ⊢
    rw [h]
    simp [aggError, getCount_bump_self]
    omega

theorem agg_failures_example_present (m : String) (jobs : List Nat) (st : Stats)
    (v : List Nat) (h : goFind st.exampleMessage 0 = some v) :
    goFind (aggOutcomes st (jobs.map (fun i => Outcome.failure i m))).exampleMessage 0
      = some v := by
  induction jobs generalizing st with
  | nil => simpa [aggOutcomes] using h
  | cons j rest ih =>
    have hstep : goFind (aggError st m).exampleMessage 0 = some v :=
      goFind_setIfAbsent_present st.exampleMessage 0 (stringBytes m) v h
    simpa [aggOutcomes, aggOutcome] using ih (aggError st m) hstep

theorem agg_failures_example_absent (m : String) (jobs : List Nat) (st : Stats)
    (h : goFind st.exampleMessage 0 = none) (hne : jobs ≠ []) :
    goFind (aggOutcomes st (jobs.map (fun i => Outcome.failure i m))).exampleMessage 0
      = some (stringBytes m) := by
  cases jobs with
  | nil => exact absurd rfl hne
  | cons j rest =>
    have hstep : goFind (aggError st m).exampleMessage 0 = some (stringBytes m) :=
      goFind_setIfAbsent_absent st.exampleMessage 0 (stringBytes m) h
    simpa [aggOutcomes, aggOutcome] using
      agg_failures_example_present m rest (aggError st m) (stringBytes m) hstep

/-- C6: for any payloadFormat outside json, form, multipart, binary,
graphql, every index fails at the encoder with the unsupported-format
error; the run is not aborted — the worker emits the failure and
continues, producing one failure outcome per index — and aggregation
counts every one of them under pseudo-status 0, with exampleMessage[0]
the error text set on first occurrence. -/
theorem claim_c6 (boundary fmt : String) (gen : Nat → Fields)
    (transportAt : Nat → Except String Response) (jobs : List Nat)
    (h : fmt ∉ supportedFormats) :
    workerRun boundary fmt gen transportAt jobs
        = jobs.map (fun i => Outcome.failure i ("unsupported payload type: " ++ fmt))
    ∧ getCount (aggOutcomes emptyStats
          (workerRun boundary fmt gen transportAt jobs)).totalPerStatus 0
        = jobs.length
    ∧ (jobs ≠ [] →
        goFind (aggOutcomes emptyStats
            (workerRun boundary fmt gen transportAt jobs)).exampleMessage 0
          = some (stringBytes ("unsupported payload type: " ++ fmt))) := by
  have hrun : workerRun boundary fmt gen transportAt jobs
      = jobs.map (fun i => Outcome.failure i ("unsupported payload type: " ++ fmt)) := by
    induction jobs with
    | nil => rfl
    | cons j rest ih =>
      simp [workerRun, encode_unsupported boundary fmt (gen j) h, ih]
  refine ⟨hrun, ?_, ?_⟩
  · rw [hrun]
    have := agg_failures_count ("unsupported payload type: " ++ fmt) jobs emptyStats
    simpa [emptyStats, getCount, goFind] using this
  · intro hne
    rw [hrun]
    exact agg_failures_example_absent _ jobs emptyStats (by simp [emptyStats, goFind]) hne

/-- Witness for C6 at the concrete unsupported format xml over two
indices: both requests fail with the unsupported-format error, the run
yields both failure outcomes in order, and the aggregate counts 2 under
status 0 with the error text as example. -/
theorem claim_c6_witness :
    workerRun "b" "xml" (fun _ => []) (fun _ => Except.error "refused") [0, 1]
        = [Outcome.failure 0 "unsupported payload type: xml",
           Outcome.failure 1 "unsupported payload type: xml"]
    ∧ getCount (aggOutcomes emptyStats
          (workerRun "b" "xml" (fun _ => []) (fun _ => Except.error "refused")
            [0, 1])).totalPerStatus 0 = 2
    ∧ goFind (aggOutcomes emptyStats
          (workerRun "b" "xml" (fun _ => []) (fun _ => Except.error "refused")
            [0, 1])).exampleMessage 0
        = some (stringBytes "unsupported payload type: xml") := by
  have h := claim_c6 "b" "xml" (fun _ => []) (fun _ => Except.error "refused") [0, 1]
    (by decide)
  refine ⟨?_, by simpa using h.2.1, (h.2.2 (by decide)).trans (by decide)⟩
  rw [h.1]
  decide

/-! The per-batch collector loop (client.go lines 286-324).  The result
and error channels are buffered with capacity batchSize, so the workers
can run to completion — filling both queues and closing both channels —
before the collector consumes anything: the model fixes that reachable
interleaving and leaves the collector's choice of ready select case (Go
picks one of the ready cases at random) as a schedule input.  After the
close, a receive from an exhausted channel is immediately ready and
returns ok = false. -/

/-- Collector state: the two closed channel buffers, the stats built so
far, the processed counter and the batch size bounding the loop. -/
structure CollectState where
  resultsQ : List Response
  errorsQ : List String
  stats : Stats
  processed : Nat
  batchSize : Nat
deriving Repr

/-- Which ready select case the scheduler hands the collector. -/
inductive Choice where
  | res
  | err
  | timeout
deriving DecidableEq, Repr

/-- One iteration of the collector's select (client.go lines 288-323).
Receiving a response aggregates it and bumps processed; receiving from
the closed-and-drained results channel drains and DISCARDS the error
channel and forces processed to batchSize (lines 290-296); receiving an
error aggregates it under status 0; receiving from the closed-and-drained
error channel forces processed to batchSize without draining results
(lines 309-313); the 1-second timeout does nothing. -/
def collectStep (s : CollectState) : Choice → CollectState
  | .res =>
    match s.resultsQ with
    | r :: rest =>
      { s with resultsQ := rest, stats := aggRecord s.stats r, processed := s.processed + 1 }
    | [] => { s with errorsQ := [], processed := s.batchSize }
  | .err =>
    match s.errorsQ with
    | e :: rest =>
      { s with errorsQ := rest, stats := aggError s.stats e, processed := s.processed + 1 }
    | [] => { s with processed := s.batchSize }
  | .timeout => s

/-- The collector loop: while processed < batchSize, run the next
scheduled select case (client.go line 287). -/
def collectRun (s : CollectState) : List Choice → CollectState
  | [] => s
  | c :: cs => if s.processed < s.batchSize then collectRun (collectStep s c) cs else s

/-- Collector state at the start of a batch whose workers produced the
given responses and errors: empty stats, processed = 0, batchSize the
total number of outcomes. -/
def initCollect (rs : List Response) (es : List String) : CollectState :=
  { resultsQ := rs, errorsQ := es, stats := emptyStats, processed := 0
    batchSize := rs.length + es.length }

/-- Sum of all per-status counts of the stats. -/
def statsTotal (st : Stats) : Nat := sumCounts st.totalPerStatus

/-- C1: a batch of N = 2 outcomes — one 200 response and one transport
failure — under the schedule that hands the collector the results case
twice (legal: with both channels closed every case is ready and Go picks
among ready cases at random) ends with sum(totalPerStatus) = 1, not 2:
the second results receive sees the closed channel and the collector
drains and discards the pending error without aggregating it, so the
closed-accounting invariant fails for this interleaving. -/
theorem c1_collector_drops_outcome :
    statsTotal (collectRun
        (initCollect [⟨"200 OK", 200, "OK"⟩] ["idx 1: connection refused"])
        [Choice.res, Choice.res]).stats = 1
    ∧ (initCollect [⟨"200 OK", 200, "OK"⟩] ["idx 1: connection refused"]).batchSize = 2 := by
  exact ⟨by decide, by decide⟩

/-! The per-batch worker pool (client.go lines 154-283): W workers are
spawned per batch, each holding at most one request in flight at a time
(the loop body at lines 170-261 is sequential), drawing indices from the
jobs channel, whose capacity is the batch size end - start.  The model is
a step relation: a step either hands the head of the queue to an idle
worker or completes the request a worker holds. -/

/-- State of one batch: the indices still queued and, per worker, the
index it is currently dispatching, if any. -/
structure BatchState (W : Nat) where
  queued : List Nat
  active : Fin W → Option Nat

/-- Batch transitions: an idle worker receives the next queued index, or
a busy worker completes its request. -/
inductive BatchStep (W : Nat) : BatchState W → BatchState W → Prop where
  | dispatch (s : BatchState W) (w : Fin W) (j : Nat) (rest : List Nat) :
      s.active w = none → s.queued = j :: rest →
      BatchStep W s { queued := rest, active := Function.update s.active w (some j) }
  | complete (s : BatchState W) (w : Fin W) (j : Nat) :
      s.active w = some j →
      BatchStep W s { queued := s.queued, active := Function.update s.active w none }

/-- Initial state of the batch over [start, stop): the feeder's indices
queued (the jobs channel holds at most stop - start of them, its
capacity), all workers idle. -/
def initBatch (W : Nat) (start stop : Nat) : BatchState W :=
  { queued := List.range' start (stop - start), active := fun _ => none }

/-- Number of requests in flight: the workers currently dispatching. -/
def inFlight {W : Nat} (s : BatchState W) : Nat :=
  (Finset.univ.filter (fun w => (s.active w).isSome)).card

/-- C3: in every state reachable in the batch over
[start, min (start + C) N) — the chunk bounds of client.go lines
154-159 — at most W requests are in flight (each in-flight request is
held by one of the W workers, each holding at most one) and at most C
indices are resident in the job queue (its capacity is the batch size,
which never exceeds the chunk size C). -/
theorem claim_c3 (W C N start : Nat) (s : BatchState W)
    (h : Relation.ReflTransGen (BatchStep W) (initBatch W start (min (start + C) N)) s) :
    inFlight s ≤ W ∧ s.queued.length ≤ C := by
  constructor
  · calc inFlight s ≤ (Finset.univ : Finset (Fin W)).card := Finset.card_filter_le _ _
      _ = W := by simp
  · have hmono : s.queued.length ≤ (initBatch W start (min (start + C) N)).queued.length := by
      induction h with
      | refl => exact le_refl _
      | tail hsteps hstep ih =>
        cases hstep with
        | dispatch w j rest hidle hq =>
          have hlen := congrArg List.length hq
          simp only [List.length_cons] at hlen
          show rest.length ≤ (initBatch W start (min (start + C) N)).queued.length
          omega
        | complete w j hbusy =>
          exact ih
    have hinit : (initBatch W start (min (start + C) N)).queued.length
        = min (start + C) N - start := by
      simp [initBatch]
    rw [hinit] at hmono
    omega

/-- Witness for C3 at the initial state of the batch [3, min 7 10) with
W = 2 workers and chunk size C = 4, reachable by the empty step
sequence. -/
theorem claim_c3_witness :
    inFlight (initBatch 2 3 (min (3 + 4) 10)) ≤ 2
    ∧ (initBatch 2 3 (min (3 + 4) 10)).queued.length ≤ 4 :=
  claim_c3 2 4 10 3 (initBatch 2 3 (min (3 + 4) 10)) Relation.ReflTransGen.refl

end X1
